import Mathlib

/-!
Formal model of the kid_bank backend (a family-finance ledger).

The DynamoDB single-table store is modelled as a list of items, an item
being an association list from attribute names to attribute values
(string attributes and number attributes; DynamoDB number values are
exact decimals and are embedded as rationals).  Every operation of
src/backend/src/common/dynamodb.py that the claims touch is translated
into a pure state-passing function over this table model.  The
transactional conditional write used by adjust_balance_with_transaction
is evaluated against an explicit store environment, so that concurrent
modification of the row between the initial read and the write, as well
as storage-layer faults, are expressible.
-/

namespace KidBank

inductive Attr where
  | s (v : String)
  | n (v : ℚ)

deriving instance DecidableEq for Attr

/-- A stored item: attribute name to attribute value map. -/
abbrev Item := List (String × Attr)

/-- The single DynamoDB table. -/
abbrev Table := List Item

/-- models.KeyPattern.user_pk -/
def user_pk (user_id : String) : String := "USER#" ++ user_id

/-- models.KeyPattern.profile_sk -/
def profile_sk : String := "PROFILE"

/-- models.KeyPattern.transaction_sk -/
def transaction_sk (timestamp transaction_id : String) : String :=
  "TRANS#" ++ timestamp ++ "#" ++ transaction_id

def getAttr (it : Item) (a : String) : Option Attr :=
  (it.find? (fun p => p.1 == a)).map (fun p => p.2)

def getS (it : Item) (a : String) : Option String :=
  match getAttr it a with
  | some (Attr.s v) => some v
  | _ => none

def getN (it : Item) (a : String) : Option ℚ :=
  match getAttr it a with
  | some (Attr.n v) => some v
  | _ => none

/-- One SET clause of an UpdateExpression: write attribute `a`. -/
def setAttr (it : Item) (a : String) (v : Attr) : Item :=
  (a, v) :: it.filter (fun p => !(p.1 == a))

def pkOf (it : Item) : String := (getS it "PK").getD ""

def skOf (it : Item) : String := (getS it "SK").getD ""

def sameKey (i1 i2 : Item) : Bool :=
  pkOf i1 == pkOf i2 && skOf i1 == skOf i2

/-- PutItem: unconditionally replaces any item with the same primary key. -/
def put_item (t : Table) (it : Item) : Table :=
  it :: t.filter (fun j => !(sameKey j it))

/-- GetItem by full primary key. -/
def get_item (t : Table) (pk sk : String) : Option Item :=
  t.find? (fun it => pkOf it == pk && skOf it == sk)

/-- Decimal(str(item.get("balance", 0))): missing attribute reads as 0. -/
def itemBalance (it : Item) : ℚ := (getN it "balance").getD 0

/-- Decimal(str(item.get("interestRate", 0))): missing attribute reads as 0. -/
def itemRate (it : Item) : ℚ := (getN it "interestRate").getD 0

inductive UserRole where
  | parent
  | child

deriving instance DecidableEq for UserRole

def UserRole.val : UserRole → String
  | .parent => "parent"
  | .child => "child"

inductive TransactionType where
  | deposit
  | withdrawal
  | interest
  | adjustment

deriving instance DecidableEq for TransactionType

def TransactionType.val : TransactionType → String
  | .deposit => "deposit"
  | .withdrawal => "withdrawal"
  | .interest => "interest"
  | .adjustment => "adjustment"

/-- dynamodb.DynamoDBClient.get_user_profile -/
def get_user_profile (t : Table) (user_id : String) : Option Item :=
  get_item t (user_pk user_id) profile_sk

/-- The item written by the Put leg of the transactional write. -/
def txStoredItem (uid : String) (amount : ℚ) (ttype : TransactionType)
    (descr initiated_by ts txid : String) (newBal : ℚ) : Item :=
  [("PK", Attr.s (user_pk uid)),
   ("SK", Attr.s (transaction_sk ts txid)),
   ("transactionId", Attr.s txid),
   ("userId", Attr.s uid),
   ("amount", Attr.n amount),
   ("type", Attr.s (TransactionType.val ttype)),
   ("description", Attr.s descr),
   ("balanceAfter", Attr.n newBal),
   ("initiatedBy", Attr.s initiated_by),
   ("timestamp", Attr.s ts)]

/-- The dict returned by adjust_balance_with_transaction on success. -/
def txReturnDict (uid : String) (amount : ℚ) (ttype : TransactionType)
    (descr initiated_by ts txid : String) (newBal : ℚ) : Item :=
  [("transactionId", Attr.s txid),
   ("userId", Attr.s uid),
   ("amount", Attr.n amount),
   ("type", Attr.s (TransactionType.val ttype)),
   ("description", Attr.s descr),
   ("balanceAfter", Attr.n newBal),
   ("initiatedBy", Attr.s initiated_by),
   ("timestamp", Attr.s ts)]

/-- The ConditionExpression of the balance Update leg:
attribute_exists(PK) AND balance = :current_balance, evaluated on the
store state at write time. -/
def adjCondition (tw : Table) (uid : String) (curBal : ℚ) : Bool :=
  match get_user_profile tw uid with
  | some it => decide (getN it "balance" = some curBal)
  | none => false

/-- Effect of the committed transactional write: SET balance and
updatedAt on the profile row, and Put the transaction record; both
applied atomically. -/
def applyTransact (tw : Table) (uid : String) (newBal : ℚ) (ts : String)
    (txItem : Item) : Table :=
  match get_user_profile tw uid with
  | some it =>
      put_item (put_item tw (setAttr (setAttr it "balance" (Attr.n newBal)) "updatedAt" (Attr.s ts))) txItem
  | none => tw

inductive TransactResp where
  | success
  | canceled (reasonCodes : List (Option String))
  | clientError

/-- Store environment at the moment of the transactional write: either
the store is reachable and the conditional write is decided against the
table state `tw` at that moment, or the transaction is cancelled for a
non-conditional reason (the cancellation reason codes are reported), or
some other ClientError occurs. -/
inductive StoreEnv where
  | avail (tw : Table)
  | cancel (tw : Table) (reasonCodes : List (Option String))
  | err (tw : Table)

/-- The store response and resulting table for one transact_write_items
call. A cancelled or failed transaction writes nothing. -/
def storeTransact (env : StoreEnv) (uid : String) (curBal newBal : ℚ)
    (ts : String) (txItem : Item) : TransactResp × Table :=
  match env with
  | .avail tw =>
      if adjCondition tw uid curBal then
        (TransactResp.success, applyTransact tw uid newBal ts txItem)
      else
        (TransactResp.canceled [some "ConditionalCheckFailed", some "None"], tw)
  | .cancel tw reasonCodes => (TransactResp.canceled reasonCodes, tw)
  | .err tw => (TransactResp.clientError, tw)

inductive AdjRes where
  | ok (rec : Item)
  | notFound
  | insufficientFunds
  | conflict
  | dbError

deriving instance DecidableEq for AdjRes

structure AdjOut where
  res : AdjRes
  post : Table
  writes : Nat

deriving instance DecidableEq for AdjOut

/-- The TransactionCanceledException handler: scan the cancellation
reasons; any reason with Code ConditionalCheckFailed raises
ConflictError, otherwise DatabaseError. -/
def onCanceled (reasonCodes : List (Option String)) : AdjRes :=
  if reasonCodes.any (fun r => r == some "ConditionalCheckFailed") then
    AdjRes.conflict
  else
    AdjRes.dbError

/-- dynamodb.DynamoDBClient.adjust_balance_with_transaction.
`t` is the table state seen by the initial read; `env` is the store
environment at the write.  `writes` counts transact_write_items calls. -/
def adjust_balance_with_transaction (t : Table) (env : StoreEnv)
    (uid : String) (amount : ℚ) (ttype : TransactionType)
    (descr initiated_by ts txid : String) : AdjOut :=
  match get_user_profile t uid with
  | none => ⟨AdjRes.notFound, t, 0⟩
  | some prof =>
      let curBal := itemBalance prof
      let newBal := curBal + amount
      if newBal < 0 then ⟨AdjRes.insufficientFunds, t, 0⟩
      else
        let txItem := txStoredItem uid amount ttype descr initiated_by ts txid newBal
        match storeTransact env uid curBal newBal ts txItem with
        | (TransactResp.success, tw) =>
            ⟨AdjRes.ok (txReturnDict uid amount ttype descr initiated_by ts txid newBal), tw, 1⟩
        | (TransactResp.canceled rs, tw) => ⟨onCanceled rs, tw, 1⟩
        | (TransactResp.clientError, tw) => ⟨AdjRes.dbError, tw, 1⟩

/-- models.KeyPattern.parent_gsi1_pk -/
def parent_gsi1_pk (parent_id : String) : String := "PARENT#" ++ parent_id

/-- models.KeyPattern.child_gsi1_sk -/
def child_gsi1_sk (child_id : String) : String := "CHILD#" ++ child_id

/-- models.KeyPattern.role_gsi2_pk -/
def role_gsi2_pk (role : UserRole) : String := "ROLE#" ++ UserRole.val role

/-- models.KeyPattern.user_gsi2_sk -/
def user_gsi2_sk (user_id : String) : String := "USER#" ++ user_id

/-- dynamodb.DynamoDBClient.create_user_profile.  The write is a plain
put_item with no ConditionExpression, so it replaces any existing item
under the same key.  `parent_id = some pid` with nonempty pid models a
truthy parent_id. -/
def create_user_profile (t : Table) (user_id email name : String)
    (role : UserRole) (parent_id : Option String)
    (balance interest_rate : ℚ) (ts : String) : Table × Item :=
  let item : Item :=
    [("PK", Attr.s (user_pk user_id)),
     ("SK", Attr.s profile_sk),
     ("userId", Attr.s user_id),
     ("email", Attr.s email),
     ("name", Attr.s name),
     ("role", Attr.s (UserRole.val role)),
     ("balance", Attr.n balance),
     ("interestRate", Attr.n interest_rate),
     ("createdAt", Attr.s ts),
     ("updatedAt", Attr.s ts)]
  let item : Item :=
    match role, parent_id with
    | UserRole.child, some pid =>
        if pid = "" then item
        else
          item ++
            [("parentId", Attr.s pid),
             ("GSI1PK", Attr.s (parent_gsi1_pk pid)),
             ("GSI1SK", Attr.s (child_gsi1_sk user_id)),
             ("GSI2PK", Attr.s (role_gsi2_pk UserRole.child)),
             ("GSI2SK", Attr.s (user_gsi2_sk user_id))]
    | _, _ => item
  (put_item t item, item)

/-- dynamodb.DynamoDBClient.update_user_profile.  The write is an
update_item (SET of updatedAt plus the supplied fields) with no
ConditionExpression; per DynamoDB UpdateItem semantics this upserts:
when no item exists under the key, a new item holding the key
attributes and the SET fields is created. -/
def updBase (t : Table) (user_id : String) : Item :=
  match get_item t (user_pk user_id) profile_sk with
  | some it => it
  | none => [("PK", Attr.s (user_pk user_id)), ("SK", Attr.s profile_sk)]

def update_user_profile (t : Table) (user_id : String)
    (name : Option String) (interest_rate : Option ℚ) (ts : String) :
    Table × Item :=
  let it1 := setAttr (updBase t user_id) "updatedAt" (Attr.s ts)
  let it2 := match name with
    | some n => setAttr it1 "name" (Attr.s n)
    | none => it1
  let it3 := match interest_rate with
    | some r => setAttr it2 "interestRate" (Attr.n r)
    | none => it2
  (put_item t it3, it3)

/-- Decimal.quantize(Decimal("0.01"), rounding=ROUND_HALF_UP): round to
2 decimal places, ties away from zero. -/
def roundHalfUp2 (x : ℚ) : ℚ :=
  if 0 ≤ x then (⌊x * 100 + 1 / 2⌋ : ℚ) / 100
  else -((⌊-x * 100 + 1 / 2⌋ : ℚ) / 100)

/-- What lambdas/interest/calculate_interest.py decides for one child
row: raise (missing userId), skip, or call
adjust_balance_with_transaction once with these arguments.  The
description string (a float-formatted rendering of the rate) is not
modelled; no claim depends on it. -/
inductive InterestAction where
  | errMissingUserId
  | skip
  | app (uid : String) (amount : ℚ) (ttype : TransactionType) (initiated_by : String)

deriving instance DecidableEq for InterestAction

def interestActionFor (child : Item) : InterestAction :=
  match getS child "userId" with
  | none => InterestAction.errMissingUserId
  | some uid =>
      let current_balance := itemBalance child
      let interest_rate := itemRate child
      if interest_rate = 0 then InterestAction.skip
      else if current_balance = 0 then InterestAction.skip
      else
        let interest_amount := roundHalfUp2 (current_balance * interest_rate)
        if interest_amount = 0 then InterestAction.skip
        else InterestAction.app uid interest_amount TransactionType.interest "SYSTEM"

inductive PerChild where
  | succeeded
  | skipped
  | failed

deriving instance DecidableEq for PerChild

/-- One iteration of the per-child loop of lambda_handler.  Every
exception of the body (including a failing adjust call and a missing
userId) is caught inside the loop and recorded as a failure.
`adjustOk` abstracts whether the store-side adjust call for the given
user and amount succeeds.  The second component counts the
adjust_balance_with_transaction calls made for this child. -/
def processChild (adjustOk : String → ℚ → Bool) (child : Item) : PerChild × Nat :=
  match interestActionFor child with
  | InterestAction.errMissingUserId => (PerChild.failed, 0)
  | InterestAction.skip => (PerChild.skipped, 0)
  | InterestAction.app uid amt _ _ =>
      (if adjustOk uid amt then PerChild.succeeded else PerChild.failed, 1)

/-- The whole per-child loop: each child is processed in order and the
outcome of one child never interrupts the rest. -/
def runInterestJob (adjustOk : String → ℚ → Bool) (children : List Item) :
    List (PerChild × Nat) :=
  children.map (processChild adjustOk)

/-- models.MAX_TRANSACTION_PAGINATION_LIMIT -/
def MAX_TRANSACTION_PAGINATION_LIMIT : Int := 100

/-- The limit computation of lambdas/transactions/list_transactions.py:
int(query_params.get("limit", 50)) followed by
`if limit > MAX_TRANSACTION_PAGINATION_LIMIT: limit = MAX_...`. -/
def effective_limit (limitParam : Option Int) : Int :=
  let limit := match limitParam with
    | some v => v
    | none => 50
  if limit > MAX_TRANSACTION_PAGINATION_LIMIT then
    MAX_TRANSACTION_PAGINATION_LIMIT
  else limit

/-- A UTC instant at microsecond resolution, as carried by a Python
datetime. -/
structure UtcTime where
  year : Nat
  month : Nat
  day : Nat
  hour : Nat
  minute : Nat
  second : Nat
  micro : Nat

deriving instance DecidableEq for UtcTime

/-- Zero-pad the decimal rendering of `n` to width `w`. -/
def padNum (w n : Nat) : String :=
  String.mk (List.replicate (w - (toString n).length) '0') ++ toString n

/-- datetime.isoformat(): the ".ffffff" block is emitted only when the
microsecond field is nonzero. -/
def pyIsoformat (t : UtcTime) : String :=
  padNum 4 t.year ++ "-" ++ padNum 2 t.month ++ "-" ++ padNum 2 t.day ++ "T" ++
    padNum 2 t.hour ++ ":" ++ padNum 2 t.minute ++ ":" ++ padNum 2 t.second ++
    (if t.micro = 0 then "" else "." ++ padNum 6 t.micro)

/-- The timestamp string the store generates:
datetime.utcnow().isoformat() + "Z". -/
def storeTimestamp (t : UtcTime) : String := pyIsoformat t ++ "Z"

/-- Chronological order, encoded as a single integer (valid for
calendar field ranges). -/
def timeCode (t : UtcTime) : Nat :=
  ((((((t.year * 13 + t.month) * 32 + t.day) * 24 + t.hour) * 60 + t.minute) * 60
      + t.second) * 1000000) + t.micro

/-- Code points of a string (the claims only involve ASCII strings,
where this coincides with the UTF-8 bytes DynamoDB and base64 see). -/
def strBytes (s : String) : List Nat := s.data.map Char.toNat

def bytesToStr (bs : List Nat) : String := String.mk (bs.map Char.ofNat)

/-- Lexicographic byte order, the order of DynamoDB sort keys. -/
def bytesLtB : List Nat → List Nat → Bool
  | [], [] => false
  | [], _ :: _ => true
  | _ :: _, [] => false
  | a :: as, b :: bs => if a < b then true else if b < a then false else bytesLtB as bs

def strLtB (s1 s2 : String) : Bool := bytesLtB (strBytes s1) (strBytes s2)

/-- Standard base64 alphabet: sextet to ASCII code. -/
def b64Char (n : Nat) : Nat :=
  if n < 26 then 65 + n
  else if n < 52 then 97 + (n - 26)
  else if n < 62 then 48 + (n - 52)
  else if n = 62 then 43
  else 47

/-- ASCII code to sextet, none for non-alphabet bytes. -/
def b64Sextet (c : Nat) : Option Nat :=
  if 65 ≤ c ∧ c ≤ 90 then some (c - 65)
  else if 97 ≤ c ∧ c ≤ 122 then some (c - 97 + 26)
  else if 48 ≤ c ∧ c ≤ 57 then some (c - 48 + 52)
  else if c = 43 then some 62
  else if c = 47 then some 63
  else none

/-- base64.b64encode over byte values, three bytes to four chars, with
trailing = padding. -/
def b64Encode : List Nat → List Nat
  | [] => []
  | [a] => [b64Char (a / 4), b64Char (a % 4 * 16), 61, 61]
  | [a, b] => [b64Char (a / 4), b64Char (a % 4 * 16 + b / 16), b64Char (b % 16 * 4), 61]
  | a :: b :: c :: rest =>
      b64Char (a / 4) :: b64Char (a % 4 * 16 + b / 16) ::
        b64Char (b % 16 * 4 + c / 64) :: b64Char (c % 64) :: b64Encode rest

/-- Decode groups of four base64 chars; = padding may only close the
final group, and a group never starts with =. -/
def b64DecodeBlocks : List Nat → Option (List Nat)
  | [] => some []
  | a :: b :: c :: d :: rest =>
      match b64Sextet a, b64Sextet b with
      | some x, some y =>
          if c = 61 then
            if d = 61 ∧ rest = [] then some [x * 4 + y / 16] else none
          else
            match b64Sextet c with
            | some z =>
                if d = 61 then
                  if rest = [] then some [x * 4 + y / 16, y % 16 * 16 + z / 4] else none
                else
                  match b64Sextet d with
                  | some w =>
                      match b64DecodeBlocks rest with
                      | some tl => some ((x * 4 + y / 16) :: (y % 16 * 16 + z / 4) :: (z % 4 * 64 + w) :: tl)
                      | none => none
                  | none => none
            | none => none
      | _, _ => none
  | _ => none

def isB64Byte (c : Nat) : Bool := (b64Sextet c).isSome || c == 61

/-- base64.b64decode with default validation: bytes outside the
alphabet are discarded, then the length must be a multiple of four or
binascii.Error is raised. -/
def pyB64Decode (s : List Nat) : Option (List Nat) :=
  let t := s.filter isB64Byte
  if t.length % 4 = 0 then b64DecodeBlocks t else none

/-- A DynamoDB LastEvaluatedKey / ExclusiveStartKey for the base-table
transaction query: the primary key pair of the boundary item. -/
structure Lek where
  pk : String
  sk : String

deriving instance DecidableEq for Lek

/-- Bytes that need no JSON string escaping (and are ASCII).  All key
strings this application generates are of this shape. -/
def jsonSafeByte (c : Nat) : Bool :=
  decide (32 ≤ c) && decide (c < 128) && !(c == 34) && !(c == 92)

def lekSane (k : Lek) : Bool :=
  (strBytes k.pk).all jsonSafeByte && (strBytes k.sk).all jsonSafeByte

/-- json.dumps of the key dict, with the default ", " and ": "
separators, as a byte list. -/
def jsonDumpsLek (k : Lek) : List Nat :=
  [123, 34, 80, 75, 34, 58, 32, 34] ++ strBytes k.pk ++
    [34, 44, 32, 34, 83, 75, 34, 58, 32, 34] ++ strBytes k.sk ++ [34, 125]

/-- Consume an expected byte sequence. -/
def dropSeq : List Nat → List Nat → Option (List Nat)
  | [], rest => some rest
  | _ :: _, [] => none
  | p :: ps, c :: cs => if c = p then dropSeq ps cs else none

/-- Consume an escape-free JSON string body up to its closing quote. -/
def takeJsonStr : List Nat → Option (List Nat × List Nat)
  | [] => none
  | c :: cs =>
      if c = 34 then some ([], cs)
      else if jsonSafeByte c then
        match takeJsonStr cs with
        | some (sb, rest) => some (c :: sb, rest)
        | none => none
      else none

/-- json.loads, restricted to the object shape json.dumps produces for
a key dict. -/
def jsonLoadsLek (bs : List Nat) : Option Lek :=
  (dropSeq [123, 34, 80, 75, 34, 58, 32, 34] bs).bind (fun r1 =>
    (takeJsonStr r1).bind (fun pr =>
      (dropSeq [44, 32, 34, 83, 75, 34, 58, 32, 34] pr.2).bind (fun r3 =>
        (takeJsonStr r3).bind (fun qr =>
          if qr.2 = [125] then some ⟨bytesToStr pr.1, bytesToStr qr.1⟩ else none))))

/-- json.loads(base64.b64decode(next_token)) with failures as none. -/
def decodeToken (s : String) : Option Lek :=
  Option.bind (pyB64Decode (strBytes s)) jsonLoadsLek

/-- base64.b64encode(json.dumps(last_evaluated_key).encode()).decode() -/
def encodeToken (k : Lek) : String :=
  bytesToStr (b64Encode (jsonDumpsLek k))

def itemKeyOf (it : Item) : Option Lek :=
  match getS it "PK", getS it "SK" with
  | some p, some s => some ⟨p, s⟩
  | _, _ => none

def insDesc (x : Item) : List Item → List Item
  | [] => [x]
  | y :: ys => if strLtB (skOf x) (skOf y) then y :: insDesc x ys else x :: y :: ys

/-- Items of one partition in descending sort-key order. -/
def sortBySkDesc : List Item → List Item
  | [] => []
  | x :: xs => insDesc x (sortBySkDesc xs)

/-- The table.query call of get_transactions: KeyConditionExpression
PK = :pk AND begins_with(SK, :skPre), ScanIndexForward false, Limit,
and an optional ExclusiveStartKey.  A descending scan resumed from an
ExclusiveStartKey continues with the items whose sort key is strictly
below the boundary; LastEvaluatedKey is reported when the page was cut
by the limit. -/
def queryTransDesc (t : Table) (pk skPre : String) (limit : Nat)
    (esk : Option Lek) : List Item × Option Lek :=
  let ms := t.filter (fun it => pkOf it == pk && (skOf it).startsWith skPre)
  let sorted := sortBySkDesc ms
  let after := match esk with
    | none => sorted
    | some k => sorted.filter (fun it => strLtB (skOf it) k.sk)
  let page := after.take limit
  let lek := if limit < after.length then Option.bind page.getLast? itemKeyOf else none
  (page, lek)

structure TransPage where
  transactions : List Item
  nextToken : Option String

deriving instance DecidableEq for TransPage

/-- dynamodb.DynamoDBClient.get_transactions: a malformed pagination
token is logged and dropped (no ExclusiveStartKey is set); a present
LastEvaluatedKey is encoded into the returned nextToken. -/
def get_transactions (t : Table) (uid : String) (limit : Nat)
    (next_token : Option String) : TransPage :=
  let esk : Option Lek :=
    match next_token with
    | none => none
    | some tok => decodeToken tok
  let q := queryTransDesc t (user_pk uid) "TRANS#" limit esk
  ⟨q.1, Option.map encodeToken q.2⟩

/-- The profile-row balance attribute of a user, read from a table
state. -/
def profBal (t : Table) (uid : String) : Option ℚ :=
  Option.bind (get_user_profile t uid) (fun it => getN it "balance")

/-- Sample data: a child profile row with balance 100.00 and rate 0.05,
and a table holding just that row. -/
def sampleChildProfile : Item :=
  [("PK", Attr.s "USER#C"),
   ("SK", Attr.s "PROFILE"),
   ("userId", Attr.s "C"),
   ("email", Attr.s "c@x"),
   ("name", Attr.s "Cara"),
   ("role", Attr.s "child"),
   ("balance", Attr.n 100),
   ("interestRate", Attr.n (mkRat 1 20)),
   ("createdAt", Attr.s "2025-01-01T00:00:00.000001Z"),
   ("updatedAt", Attr.s "2025-01-01T00:00:00.000001Z"),
   ("parentId", Attr.s "P")]

def sampleTable : Table := [sampleChildProfile]

theorem find?_filter {α : Type} (p q : α → Bool) (l : List α)
    (h : ∀ x, p x = true → q x = true) :
    (l.filter q).find? p = l.find? p := by
  induction l with
  | nil => rfl
  | cons x xs ih =>
      by_cases hq : q x = true
      · rw [List.filter_cons_of_pos hq]
        by_cases hp : p x = true
        · rw [List.find?_cons_of_pos _ hp, List.find?_cons_of_pos _ hp]
        · rw [List.find?_cons_of_neg _ hp, List.find?_cons_of_neg _ hp, ih]
      · rw [List.filter_cons_of_neg hq]
        have hp : ¬ p x = true := fun hpx => hq (h x hpx)
        rw [ih, List.find?_cons_of_neg _ hp]

theorem get_item_keys {t : Table} {pk sk : String} {it : Item}
    (h : get_item t pk sk = some it) : pkOf it = pk ∧ skOf it = sk := by
  have := List.find?_some h
  simp only [Bool.and_eq_true, beq_iff_eq] at this
  exact this

theorem get_put_same (t : Table) (it : Item) (pk sk : String)
    (hp : pkOf it = pk) (hs : skOf it = sk) :
    get_item (put_item t it) pk sk = some it := by
  unfold get_item put_item
  rw [List.find?_cons_of_pos _ (by simp [hp, hs])]

theorem get_put_other (t : Table) (it : Item) (pk sk : String)
    (h : ¬ (pkOf it = pk ∧ skOf it = sk)) :
    get_item (put_item t it) pk sk = get_item t pk sk := by
  unfold get_item put_item
  rw [List.find?_cons_of_neg _ (by simp only [Bool.and_eq_true, beq_iff_eq]; intro hc; exact h hc)]
  apply find?_filter
  intro x hx
  simp only [Bool.and_eq_true, beq_iff_eq] at hx
  simp only [sameKey, Bool.not_eq_eq_eq_not, Bool.not_true, Bool.and_eq_false_iff]
  rcases hx with ⟨hx1, hx2⟩
  by_cases hpk : pkOf it = pk
  · have hsk : ¬ skOf it = sk := fun hs => h ⟨hpk, hs⟩
    right
    simp [hx2, hsk, hpk]
    intro he
    exact hsk he.symm
  · left
    simp [hx1]
    intro he
    exact hpk he.symm

theorem getAttr_setAttr_same (it : Item) (a : String) (v : Attr) :
    getAttr (setAttr it a v) a = some v := by
  unfold getAttr setAttr
  rw [List.find?_cons_of_pos _ (by simp)]
  rfl

theorem getAttr_setAttr_other (it : Item) (a b : String) (v : Attr)
    (h : b ≠ a) :
    getAttr (setAttr it a v) b = getAttr it b := by
  unfold getAttr setAttr
  rw [List.find?_cons_of_neg _ (by simp only [beq_iff_eq]; exact fun he => h he.symm)]
  rw [find?_filter]
  intro x hx
  simp only [beq_iff_eq] at hx
  simp [hx]
  intro he
  exact h (he ▸ rfl)

theorem getS_setAttr_other (it : Item) (a b : String) (v : Attr)
    (h : b ≠ a) : getS (setAttr it a v) b = getS it b := by
  unfold getS
  rw [getAttr_setAttr_other it a b v h]

theorem getN_setAttr_other (it : Item) (a b : String) (v : Attr)
    (h : b ≠ a) : getN (setAttr it a v) b = getN it b := by
  unfold getN
  rw [getAttr_setAttr_other it a b v h]

theorem transaction_sk_ne_profile (ts txid : String) :
    transaction_sk ts txid ≠ profile_sk := by
  intro h
  have h2 := congrArg String.data h
  rw [transaction_sk, profile_sk] at h2
  rw [String.data_append, String.data_append, String.data_append] at h2
  have e1 : "TRANS#".data = ['T', 'R', 'A', 'N', 'S', '#'] := rfl
  have e2 : "PROFILE".data = ['P', 'R', 'O', 'F', 'I', 'L', 'E'] := rfl
  rw [e1, e2] at h2
  simp at h2

theorem getN_setAttr_same (it : Item) (a : String) (v : ℚ) :
    getN (setAttr it a (Attr.n v)) a = some v := by
  unfold getN
  rw [getAttr_setAttr_same]

theorem pkOf_setAttr (it : Item) (a : String) (v : Attr) (h : a ≠ "PK") :
    pkOf (setAttr it a v) = pkOf it := by
  unfold pkOf
  rw [getS_setAttr_other it a "PK" v (fun he => h he.symm)]

theorem skOf_setAttr (it : Item) (a : String) (v : Attr) (h : a ≠ "SK") :
    skOf (setAttr it a v) = skOf it := by
  unfold skOf
  rw [getS_setAttr_other it a "SK" v (fun he => h he.symm)]

theorem itemBalance_of_getN {prof : Item} {b : ℚ}
    (hbal : getN prof "balance" = some b) : itemBalance prof = b := by
  unfold itemBalance
  rw [hbal]
  rfl

/-- Shared core fact: a committed adjustment (profile present at read
time with balance attribute b, condition satisfied at write time, new
balance not negative) performs exactly one store write, returns the
transaction dict, stores the transaction record, and sets the profile
balance to b + amount. -/
theorem adjust_commit (t tw : Table) (uid : String) (a b : ℚ)
    (prof profW : Item)
    (hprof : get_user_profile t uid = some prof)
    (hbal : getN prof "balance" = some b)
    (hprofW : get_user_profile tw uid = some profW)
    (hbalW : getN profW "balance" = some b)
    (hnn : ¬ (b + a < 0))
    (ttype : TransactionType) (descr ib ts txid : String) :
    ∃ post,
      adjust_balance_with_transaction t (StoreEnv.avail tw) uid a ttype descr ib ts txid =
        ⟨AdjRes.ok (txReturnDict uid a ttype descr ib ts txid (b + a)), post, 1⟩ ∧
      profBal post uid = some (b + a) ∧
      get_item post (user_pk uid) (transaction_sk ts txid) =
        some (txStoredItem uid a ttype descr ib ts txid (b + a)) := by
  have hib : itemBalance prof = b := itemBalance_of_getN hbal
  have hcond : adjCondition tw uid b = true := by
    unfold adjCondition
    rw [hprofW]
    simp [hbalW]
  have hkeysW := get_item_keys hprofW
  unfold adjust_balance_with_transaction
  rw [hprof]
  simp only [hib]
  rw [if_neg hnn]
  simp only [storeTransact, hcond, if_true, applyTransact, hprofW]
  refine ⟨_, rfl, ?_, ?_⟩
  · -- profile balance after the committed write
    have hPkTx : pkOf (txStoredItem uid a ttype descr ib ts txid (b + a)) = user_pk uid := rfl
    have hSkTx : skOf (txStoredItem uid a ttype descr ib ts txid (b + a)) =
        transaction_sk ts txid := rfl
    unfold profBal get_user_profile
    rw [get_put_other _ _ _ _ (by
      rw [hPkTx, hSkTx]
      intro hc
      exact transaction_sk_ne_profile ts txid hc.2)]
    rw [get_put_same _ _ _ _
      (by rw [pkOf_setAttr _ _ _ (by decide), pkOf_setAttr _ _ _ (by decide)]; exact hkeysW.1)
      (by rw [skOf_setAttr _ _ _ (by decide), skOf_setAttr _ _ _ (by decide)]; exact hkeysW.2)]
    show getN (setAttr (setAttr profW "balance" (Attr.n (b + a))) "updatedAt" (Attr.s ts))
        "balance" = some (b + a)
    rw [getN_setAttr_other _ _ _ _ (by decide), getN_setAttr_same]
  · -- the stored transaction record
    exact get_put_same _ _ _ _ rfl rfl

/-- Claim C1: with a stored balance b of at least zero and any amount
a, adjust_balance_with_transaction either commits with the new balance
b + a at least zero, or, when b + a is negative, fails with
InsufficientFunds having written nothing: the table is unchanged (the
balance stays b and no transaction record exists) and no store write
was attempted. -/
theorem c1_adjust_nonneg (t : Table) (uid : String) (a b : ℚ)
    (prof : Item)
    (hprof : get_user_profile t uid = some prof)
    (hbal : getN prof "balance" = some b)
    (_hb : 0 ≤ b)
    (ttype : TransactionType) (descr ib ts txid : String) :
    (b + a < 0 →
      adjust_balance_with_transaction t (StoreEnv.avail t) uid a ttype descr ib ts txid =
        ⟨AdjRes.insufficientFunds, t, 0⟩) ∧
    (¬ (b + a < 0) →
      ∃ post,
        adjust_balance_with_transaction t (StoreEnv.avail t) uid a ttype descr ib ts txid =
          ⟨AdjRes.ok (txReturnDict uid a ttype descr ib ts txid (b + a)), post, 1⟩ ∧
        profBal post uid = some (b + a) ∧ 0 ≤ b + a) := by
  have hib : itemBalance prof = b := itemBalance_of_getN hbal
  constructor
  · intro hlt
    unfold adjust_balance_with_transaction
    rw [hprof]
    simp only [hib]
    rw [if_pos hlt]
  · intro hge
    obtain ⟨post, h1, h2, _⟩ :=
      adjust_commit t t uid a b prof prof hprof hbal hprof hbal hge ttype descr ib ts txid
    exact ⟨post, h1, h2, le_of_not_lt hge⟩

/-- Claim C1 witness: the sample table holds the profile of child C
with balance 100; the theorem applies both to the rejected withdrawal
of 200 (Scenario B) and, at these concrete inputs, the insufficient
branch is the one taken. -/
theorem c1_witness :
    ((100 : ℚ) + -200 < 0) ∧
    (((100 : ℚ) + -200 < 0 →
      adjust_balance_with_transaction sampleTable (StoreEnv.avail sampleTable) "C" (-200)
          TransactionType.withdrawal "w" "P" "TS1" "X1" =
        ⟨AdjRes.insufficientFunds, sampleTable, 0⟩) ∧
    (¬ ((100 : ℚ) + -200 < 0) →
      ∃ post,
        adjust_balance_with_transaction sampleTable (StoreEnv.avail sampleTable) "C" (-200)
            TransactionType.withdrawal "w" "P" "TS1" "X1" =
          ⟨AdjRes.ok (txReturnDict "C" (-200) TransactionType.withdrawal "w" "P" "TS1" "X1"
              ((100 : ℚ) + -200)), post, 1⟩ ∧
        profBal post "C" = some ((100 : ℚ) + -200) ∧ 0 ≤ (100 : ℚ) + -200)) :=
  ⟨by norm_num,
   c1_adjust_nonneg sampleTable "C" (-200) 100 sampleChildProfile rfl rfl (by decide)
     TransactionType.withdrawal "w" "P" "TS1" "X1"⟩

/-- Claim C10: when no profile row exists for the user,
adjust_balance_with_transaction fails NotFound directly after the
initial read, regardless of the store environment: the table is left
untouched and zero store writes are attempted. -/
theorem c10_notfound (t : Table) (env : StoreEnv) (uid : String) (a : ℚ)
    (ttype : TransactionType) (descr ib ts txid : String)
    (h : get_user_profile t uid = none) :
    adjust_balance_with_transaction t env uid a ttype descr ib ts txid =
      ⟨AdjRes.notFound, t, 0⟩ := by
  unfold adjust_balance_with_transaction
  rw [h]

/-- Claim C10 witness: the empty table holds no profile, so the
adjustment fails NotFound with no write. -/
theorem c10_witness :
    adjust_balance_with_transaction [] (StoreEnv.avail []) "C" 5
        TransactionType.deposit "d" "P" "TS1" "X1" =
      ⟨AdjRes.notFound, [], 0⟩ :=
  c10_notfound [] (StoreEnv.avail []) "C" 5 TransactionType.deposit "d" "P" "TS1" "X1" rfl

/-- Claim C2: a committed adjustment writes, in one atomic operation, a
transaction record whose balanceAfter equals the write-time balance b
plus the amount, and sets the profile balance to that same value, so
the record snapshot equals the balance immediately after the write. -/
theorem c2_snapshot (t tw : Table) (uid : String) (a b : ℚ)
    (prof profW : Item)
    (hprof : get_user_profile t uid = some prof)
    (hbal : getN prof "balance" = some b)
    (hprofW : get_user_profile tw uid = some profW)
    (hbalW : getN profW "balance" = some b)
    (hnn : ¬ (b + a < 0))
    (ttype : TransactionType) (descr ib ts txid : String) :
    ∃ post,
      adjust_balance_with_transaction t (StoreEnv.avail tw) uid a ttype descr ib ts txid =
        ⟨AdjRes.ok (txReturnDict uid a ttype descr ib ts txid (b + a)), post, 1⟩ ∧
      get_item post (user_pk uid) (transaction_sk ts txid) =
        some (txStoredItem uid a ttype descr ib ts txid (b + a)) ∧
      getN (txStoredItem uid a ttype descr ib ts txid (b + a)) "balanceAfter" = some (b + a) ∧
      profBal post uid = some (b + a) := by
  obtain ⟨post, h1, h2, h3⟩ :=
    adjust_commit t tw uid a b prof profW hprof hbal hprofW hbalW hnn ttype descr ib ts txid
  exact ⟨post, h1, h3, rfl, h2⟩

/-- Claim C2 witness: Scenario A shaped run on the sample table
(balance 100, deposit 50): the stored record and the resulting balance
both carry 100 + 50. -/
theorem c2_witness :
    ∃ post,
      adjust_balance_with_transaction sampleTable (StoreEnv.avail sampleTable) "C" 50
          TransactionType.deposit "d" "P" "TS2" "X2" =
        ⟨AdjRes.ok (txReturnDict "C" 50 TransactionType.deposit "d" "P" "TS2" "X2"
            ((100 : ℚ) + 50)), post, 1⟩ ∧
      get_item post (user_pk "C") (transaction_sk "TS2" "X2") =
        some (txStoredItem "C" 50 TransactionType.deposit "d" "P" "TS2" "X2" ((100 : ℚ) + 50)) ∧
      getN (txStoredItem "C" 50 TransactionType.deposit "d" "P" "TS2" "X2" ((100 : ℚ) + 50))
          "balanceAfter" = some ((100 : ℚ) + 50) ∧
      profBal post "C" = some ((100 : ℚ) + 50) :=
  c2_snapshot sampleTable sampleTable "C" 50 100 sampleChildProfile sampleChildProfile
    rfl rfl rfl rfl (by norm_num) TransactionType.deposit "d" "P" "TS2" "X2"

/-- Claim C3: once the write phase is reached, a conditional-check
rejection at the store (the balance no longer equals the value read)
yields Conflict with exactly one write attempt and an unchanged store;
a cancellation whose reasons carry ConditionalCheckFailed also yields
Conflict; any other cancellation and any other ClientError surface as
DatabaseError, never silently swallowed; in every failure case the
store is unchanged and no retry is made. -/
theorem c3_conflict_and_storage (t tw : Table) (rs : List (Option String))
    (uid : String) (a b : ℚ) (prof : Item)
    (hprof : get_user_profile t uid = some prof)
    (hbal : getN prof "balance" = some b)
    (hnn : ¬ (b + a < 0))
    (ttype : TransactionType) (descr ib ts txid : String) :
    (adjCondition tw uid b = false →
      adjust_balance_with_transaction t (StoreEnv.avail tw) uid a ttype descr ib ts txid =
        ⟨AdjRes.conflict, tw, 1⟩) ∧
    (rs.any (fun r => r == some "ConditionalCheckFailed") = true →
      adjust_balance_with_transaction t (StoreEnv.cancel tw rs) uid a ttype descr ib ts txid =
        ⟨AdjRes.conflict, tw, 1⟩) ∧
    (rs.any (fun r => r == some "ConditionalCheckFailed") = false →
      adjust_balance_with_transaction t (StoreEnv.cancel tw rs) uid a ttype descr ib ts txid =
        ⟨AdjRes.dbError, tw, 1⟩) ∧
    (adjust_balance_with_transaction t (StoreEnv.err tw) uid a ttype descr ib ts txid =
      ⟨AdjRes.dbError, tw, 1⟩) := by
  have hib : itemBalance prof = b := itemBalance_of_getN hbal
  refine ⟨?_, ?_, ?_, ?_⟩
  · intro hcf
    unfold adjust_balance_with_transaction
    rw [hprof]
    simp only [hib]
    rw [if_neg hnn]
    simp only [storeTransact, hcf, Bool.false_eq_true, if_false]
    congr 1
  · intro hyes
    unfold adjust_balance_with_transaction
    rw [hprof]
    simp only [hib]
    rw [if_neg hnn]
    simp only [storeTransact]
    unfold onCanceled
    rw [hyes]
    simp
  · intro hno
    unfold adjust_balance_with_transaction
    rw [hprof]
    simp only [hib]
    rw [if_neg hnn]
    simp only [storeTransact]
    unfold onCanceled
    rw [hno]
    simp
  · unfold adjust_balance_with_transaction
    rw [hprof]
    simp only [hib]
    rw [if_neg hnn]
    simp only [storeTransact]

/-- Claim C3 witness: against the sample table, a write-time state in
which the row is gone (empty write-time table) makes the condition
fail, and the cancellation and ClientError legs are exercised with a
throttling reason list. -/
theorem c3_witness :
    (adjCondition [] "C" 100 = false) ∧
    ((adjCondition [] "C" 100 = false →
      adjust_balance_with_transaction sampleTable (StoreEnv.avail []) "C" 50
          TransactionType.deposit "d" "P" "TS3" "X3" =
        ⟨AdjRes.conflict, [], 1⟩) ∧
    ([some "TransactionConflict"].any (fun r => r == some "ConditionalCheckFailed") = true →
      adjust_balance_with_transaction sampleTable
          (StoreEnv.cancel [] [some "TransactionConflict"]) "C" 50
          TransactionType.deposit "d" "P" "TS3" "X3" =
        ⟨AdjRes.conflict, [], 1⟩) ∧
    ([some "TransactionConflict"].any (fun r => r == some "ConditionalCheckFailed") = false →
      adjust_balance_with_transaction sampleTable
          (StoreEnv.cancel [] [some "TransactionConflict"]) "C" 50
          TransactionType.deposit "d" "P" "TS3" "X3" =
        ⟨AdjRes.dbError, [], 1⟩) ∧
    (adjust_balance_with_transaction sampleTable (StoreEnv.err []) "C" 50
        TransactionType.deposit "d" "P" "TS3" "X3" =
      ⟨AdjRes.dbError, [], 1⟩)) :=
  ⟨rfl,
   c3_conflict_and_storage sampleTable [] [some "TransactionConflict"] "C" 50 100
     sampleChildProfile rfl rfl (by norm_num) TransactionType.deposit "d" "P" "TS3" "X3"⟩

theorem getS_setAttr_same (it : Item) (a : String) (v : String) :
    getS (setAttr it a (Attr.s v)) a = some v := by
  unfold getS
  rw [getAttr_setAttr_same]

theorem pkOf_updBase (t : Table) (uid : String) :
    pkOf (updBase t uid) = user_pk uid := by
  unfold updBase
  cases h : get_item t (user_pk uid) profile_sk with
  | some it => exact (get_item_keys h).1
  | none => rfl

theorem skOf_updBase (t : Table) (uid : String) :
    skOf (updBase t uid) = profile_sk := by
  unfold updBase
  cases h : get_item t (user_pk uid) profile_sk with
  | some it => exact (get_item_keys h).2
  | none => rfl

/-- Claim C4: the code performs an unconditional PutItem, so creating a
profile for a userId that already has one silently replaces the row —
the stored balance 100 becomes the fresh default 0 and no Conflict is
reported (the embedded operation has no failure outcome at all). -/
theorem c4_create_overwrites :
    profBal sampleTable "C" = some 100 ∧
    profBal (create_user_profile sampleTable "C" "c@x" "Cara" UserRole.child (some "P")
        0 (mkRat 1 20) "T1").1 "C" = some 0 :=
  ⟨rfl, rfl⟩

/-- Claim C5 counterexample: updateProfile on a userId with no profile
row does not fail NotFound and does not leave the table without a row:
the unconditioned UpdateItem upserts, so a row for the user exists
afterwards. -/
theorem c5_counterexample :
    get_user_profile [] "u1" = none ∧
    (get_user_profile (update_user_profile [] "u1" (some "X") none "T1").1 "u1").isSome = true :=
  ⟨rfl, rfl⟩

/-- Claim C5 as amended: update_user_profile never fails NotFound —
after the call a profile row for the user always exists (for a missing
user it is freshly created from the key attributes alone, an upsert);
the written row differs from the base row only in updatedAt and the
supplied fields, which carry the supplied values. -/
theorem c5_update_upsert (t : Table) (uid : String) (nameOpt : Option String)
    (rateOpt : Option ℚ) (ts : String) (aName : String)
    (hA : aName ≠ "updatedAt")
    (hN : nameOpt.isSome = true → aName ≠ "name")
    (hR : rateOpt.isSome = true → aName ≠ "interestRate") :
    get_item (update_user_profile t uid nameOpt rateOpt ts).1 (user_pk uid) profile_sk =
      some (update_user_profile t uid nameOpt rateOpt ts).2 ∧
    getAttr (update_user_profile t uid nameOpt rateOpt ts).2 aName =
      getAttr (updBase t uid) aName ∧
    getS (update_user_profile t uid nameOpt rateOpt ts).2 "updatedAt" = some ts ∧
    (match nameOpt with
     | some n => getS (update_user_profile t uid nameOpt rateOpt ts).2 "name" = some n
     | none => True) ∧
    (match rateOpt with
     | some r => getN (update_user_profile t uid nameOpt rateOpt ts).2 "interestRate" = some r
     | none => True) := by
  have hbp := pkOf_updBase t uid
  have hbs := skOf_updBase t uid
  cases nameOpt with
  | none =>
      cases rateOpt with
      | none =>
          unfold update_user_profile
          refine ⟨?_, ?_, ?_, trivial, trivial⟩
          · exact get_put_same _ _ _ _
              (by rw [pkOf_setAttr _ _ _ (by decide)]; exact hbp)
              (by rw [skOf_setAttr _ _ _ (by decide)]; exact hbs)
          · rw [getAttr_setAttr_other _ _ _ _ hA]
          · rw [getS_setAttr_same]
      | some r =>
          unfold update_user_profile
          refine ⟨?_, ?_, ?_, trivial, ?_⟩
          · exact get_put_same _ _ _ _
              (by rw [pkOf_setAttr _ _ _ (by decide), pkOf_setAttr _ _ _ (by decide)]; exact hbp)
              (by rw [skOf_setAttr _ _ _ (by decide), skOf_setAttr _ _ _ (by decide)]; exact hbs)
          · rw [getAttr_setAttr_other _ _ _ _ (hR rfl), getAttr_setAttr_other _ _ _ _ hA]
          · rw [getS_setAttr_other _ _ _ _ (by decide), getS_setAttr_same]
          · rw [getN_setAttr_same]
  | some n =>
      cases rateOpt with
      | none =>
          unfold update_user_profile
          refine ⟨?_, ?_, ?_, ?_, trivial⟩
          · exact get_put_same _ _ _ _
              (by rw [pkOf_setAttr _ _ _ (by decide), pkOf_setAttr _ _ _ (by decide)]; exact hbp)
              (by rw [skOf_setAttr _ _ _ (by decide), skOf_setAttr _ _ _ (by decide)]; exact hbs)
          · rw [getAttr_setAttr_other _ _ _ _ (hN rfl), getAttr_setAttr_other _ _ _ _ hA]
          · rw [getS_setAttr_other _ _ _ _ (by decide), getS_setAttr_same]
          · rw [getS_setAttr_same]
      | some r =>
          unfold update_user_profile
          refine ⟨?_, ?_, ?_, ?_, ?_⟩
          · exact get_put_same _ _ _ _
              (by rw [pkOf_setAttr _ _ _ (by decide), pkOf_setAttr _ _ _ (by decide),
                  pkOf_setAttr _ _ _ (by decide)]; exact hbp)
              (by rw [skOf_setAttr _ _ _ (by decide), skOf_setAttr _ _ _ (by decide),
                  skOf_setAttr _ _ _ (by decide)]; exact hbs)
          · rw [getAttr_setAttr_other _ _ _ _ (hR rfl), getAttr_setAttr_other _ _ _ _ (hN rfl),
              getAttr_setAttr_other _ _ _ _ hA]
          · rw [getS_setAttr_other _ _ _ _ (by decide), getS_setAttr_other _ _ _ _ (by decide),
              getS_setAttr_same]
          · rw [getS_setAttr_other _ _ _ _ (by decide), getS_setAttr_same]
          · rw [getN_setAttr_same]

/-- Claim C5 witness: on the sample table (row present) with only the
name supplied, the balance attribute is untouched and name plus
updatedAt carry the supplied values. -/
theorem c5_witness :
    get_item (update_user_profile sampleTable "C" (some "X") none "T9").1
        (user_pk "C") profile_sk =
      some (update_user_profile sampleTable "C" (some "X") none "T9").2 ∧
    getAttr (update_user_profile sampleTable "C" (some "X") none "T9").2 "balance" =
      getAttr (updBase sampleTable "C") "balance" ∧
    getS (update_user_profile sampleTable "C" (some "X") none "T9").2 "updatedAt" =
      some "T9" ∧
    (match (some "X" : Option String) with
     | some n => getS (update_user_profile sampleTable "C" (some "X") none "T9").2 "name" =
        some n
     | none => True) ∧
    (match (none : Option ℚ) with
     | some r => getN (update_user_profile sampleTable "C" (some "X") none "T9").2
        "interestRate" = some r
     | none => True) :=
  c5_update_upsert sampleTable "C" (some "X") none "T9" "balance" (by decide)
    (fun _ => by decide) (fun h => by cases h)

/-- Claim C6: the store generates timestamps with
datetime.utcnow().isoformat(), which omits the fractional-seconds block
exactly when the microsecond field is zero; two writes in the same UTC
second, one at microsecond 0 and one at microsecond 1, therefore
produce sort keys whose lexicographic order is the reverse of their
chronological order. -/
theorem c6_sk_order_violation :
    storeTimestamp ⟨2025, 1, 1, 0, 0, 0, 0⟩ = "2025-01-01T00:00:00Z" ∧
    storeTimestamp ⟨2025, 1, 1, 0, 0, 0, 1⟩ = "2025-01-01T00:00:00.000001Z" ∧
    timeCode ⟨2025, 1, 1, 0, 0, 0, 0⟩ < timeCode ⟨2025, 1, 1, 0, 0, 0, 1⟩ ∧
    strLtB (transaction_sk (storeTimestamp ⟨2025, 1, 1, 0, 0, 0, 1⟩) "t1")
        (transaction_sk (storeTimestamp ⟨2025, 1, 1, 0, 0, 0, 0⟩) "t1") = true :=
  ⟨by decide, by decide, by decide, by decide⟩

/-- Claim C8 counterexample: a request with limit 0 yields an effective
limit of 0, outside the interval from 1 to 100. -/
theorem c8_counterexample : effective_limit (some 0) < 1 := by decide

/-- Claim C8 as amended: the absent limit defaults to 50 and every
requested limit is clamped from above to 100, but no lower clamp is
applied: the effective limit is exactly min of the request and 100, so
requests below 1 pass through to the store unchanged. -/
theorem c8_amended :
    effective_limit none = 50 ∧
    (∀ v : Int, effective_limit (some v) = min v 100) ∧
    (∀ v : Int, effective_limit (some v) ≤ 100) := by
  refine ⟨rfl, ?_, ?_⟩
  · intro v
    show (if v > 100 then (100 : Int) else v) = min v 100
    split_ifs with h
    · omega
    · omega
  · intro v
    show (if v > 100 then (100 : Int) else v) ≤ 100
    split_ifs with h
    · omega
    · omega

theorem interestActionFor_spec (child : Item) (uid : String)
    (hu : getS child "userId" = some uid) :
    interestActionFor child =
      (if itemRate child = 0 then InterestAction.skip
       else if itemBalance child = 0 then InterestAction.skip
       else if roundHalfUp2 (itemBalance child * itemRate child) = 0 then InterestAction.skip
       else InterestAction.app uid (roundHalfUp2 (itemBalance child * itemRate child))
         TransactionType.interest "SYSTEM") := by
  unfold interestActionFor
  rw [hu]

/-- Claim C7: the interest job skips a child exactly when the rate is
zero, the balance is zero, or the half-up-rounded interest is zero (a
skip, not an error, with no adjust call); otherwise it calls
adjust_balance_with_transaction exactly once with the rounded interest,
type interest and initiatedBy SYSTEM; and the per-child loop processes
every remaining child regardless of the outcome of the current one. -/
theorem c7_interest (child : Item) (uid : String)
    (adjustOk : String → ℚ → Bool) (cs : List Item)
    (hu : getS child "userId" = some uid) :
    (interestActionFor child = InterestAction.skip ↔
      (itemRate child = 0 ∨ itemBalance child = 0 ∨
        roundHalfUp2 (itemBalance child * itemRate child) = 0)) ∧
    (¬ (itemRate child = 0 ∨ itemBalance child = 0 ∨
        roundHalfUp2 (itemBalance child * itemRate child) = 0) →
      interestActionFor child =
        InterestAction.app uid (roundHalfUp2 (itemBalance child * itemRate child))
          TransactionType.interest "SYSTEM" ∧
      (processChild adjustOk child).2 = 1) ∧
    (interestActionFor child = InterestAction.skip →
      processChild adjustOk child = (PerChild.skipped, 0)) ∧
    runInterestJob adjustOk (child :: cs) =
      processChild adjustOk child :: runInterestJob adjustOk cs := by
  have hs := interestActionFor_spec child uid hu
  refine ⟨?_, ?_, ?_, rfl⟩
  · rw [hs]
    by_cases h1 : itemRate child = 0
    · simp [h1]
    by_cases h2 : itemBalance child = 0
    · simp [h1, h2]
    by_cases h3 : roundHalfUp2 (itemBalance child * itemRate child) = 0
    · simp [h1, h2, h3]
    · simp [h1, h2, h3]
  · intro h
    push_neg at h
    obtain ⟨h1, h2, h3⟩ := h
    have happ : interestActionFor child =
        InterestAction.app uid (roundHalfUp2 (itemBalance child * itemRate child))
          TransactionType.interest "SYSTEM" := by
      rw [hs, if_neg h1, if_neg h2, if_neg h3]
    refine ⟨happ, ?_⟩
    unfold processChild
    rw [happ]
  · intro h
    unfold processChild
    rw [h]

/-- Claim C7 witness: the sample child (balance 100, rate 0.05) with an
always-committing store and an empty remainder of the fleet. -/
theorem c7_witness :
    (interestActionFor sampleChildProfile = InterestAction.skip ↔
      (itemRate sampleChildProfile = 0 ∨ itemBalance sampleChildProfile = 0 ∨
        roundHalfUp2 (itemBalance sampleChildProfile * itemRate sampleChildProfile) = 0)) ∧
    (¬ (itemRate sampleChildProfile = 0 ∨ itemBalance sampleChildProfile = 0 ∨
        roundHalfUp2 (itemBalance sampleChildProfile * itemRate sampleChildProfile) = 0) →
      interestActionFor sampleChildProfile =
        InterestAction.app "C"
          (roundHalfUp2 (itemBalance sampleChildProfile * itemRate sampleChildProfile))
          TransactionType.interest "SYSTEM" ∧
      (processChild (fun _ _ => true) sampleChildProfile).2 = 1) ∧
    (interestActionFor sampleChildProfile = InterestAction.skip →
      processChild (fun _ _ => true) sampleChildProfile = (PerChild.skipped, 0)) ∧
    runInterestJob (fun _ _ => true) [sampleChildProfile] =
      processChild (fun _ _ => true) sampleChildProfile ::
        runInterestJob (fun _ _ => true) [] :=
  c7_interest sampleChildProfile "C" (fun _ _ => true) [] rfl

theorem b64Sextet_b64Char : ∀ n, n < 64 → b64Sextet (b64Char n) = some n := by decide

theorem isB64Byte_b64Char : ∀ n, n < 64 → isB64Byte (b64Char n) = true := by decide

theorem b64Char_ne_61 : ∀ n, n < 64 → b64Char n ≠ 61 := by decide

theorem isB64Byte_lt128 (c : Nat) (h : isB64Byte c = true) : c < 128 := by
  unfold isB64Byte b64Sextet at h
  split_ifs at h with h1 h2 h3 h4 h5
  · omega
  · omega
  · omega
  · omega
  · omega
  · simp at h
    omega

theorem b64Encode_all_b64 : ∀ bs : List Nat, (∀ x ∈ bs, x < 256) →
    ∀ c ∈ b64Encode bs, isB64Byte c = true
  | [], _ => by simp [b64Encode]
  | [a], h => by
      have ha : a < 256 := h a (by simp)
      simp only [b64Encode, List.mem_cons, List.not_mem_nil, or_false]
      rintro c (rfl | rfl | rfl | rfl)
      · exact isB64Byte_b64Char _ (by omega)
      · exact isB64Byte_b64Char _ (by omega)
      · rfl
      · rfl
  | [a, b], h => by
      have ha : a < 256 := h a (by simp)
      have hb : b < 256 := h b (by simp)
      simp only [b64Encode, List.mem_cons, List.not_mem_nil, or_false]
      rintro c (rfl | rfl | rfl | rfl)
      · exact isB64Byte_b64Char _ (by omega)
      · exact isB64Byte_b64Char _ (by omega)
      · exact isB64Byte_b64Char _ (by omega)
      · rfl
  | a :: b :: c :: rest, h => by
      have ha : a < 256 := h a (by simp)
      have hb : b < 256 := h b (by simp)
      have hc : c < 256 := h c (by simp)
      have ih := b64Encode_all_b64 rest (fun x hx => h x (by simp [hx]))
      simp only [b64Encode, List.mem_cons]
      rintro d (rfl | rfl | rfl | rfl | hd)
      · exact isB64Byte_b64Char _ (by omega)
      · exact isB64Byte_b64Char _ (by omega)
      · exact isB64Byte_b64Char _ (by omega)
      · exact isB64Byte_b64Char _ (by omega)
      · exact ih d hd

theorem b64Encode_length_mod4 : ∀ bs : List Nat, (b64Encode bs).length % 4 = 0
  | [] => by simp [b64Encode]
  | [_] => by simp [b64Encode]
  | [_, _] => by simp [b64Encode]
  | _ :: _ :: _ :: rest => by
      have ih := b64Encode_length_mod4 rest
      simp only [b64Encode, List.length_cons]
      omega

theorem b64DecodeBlocks_encode : ∀ bs : List Nat, (∀ x ∈ bs, x < 256) →
    b64DecodeBlocks (b64Encode bs) = some bs
  | [], _ => rfl
  | [a], h => by
      have ha : a < 256 := h a (by simp)
      have h1 := b64Sextet_b64Char (a / 4) (by omega)
      have h2 := b64Sextet_b64Char (a % 4 * 16) (by omega)
      simp only [b64Encode, b64DecodeBlocks, h1, h2]
      simp only [if_true, and_self, reduceIte]
      congr 1
      have : a / 4 * 4 + a % 4 * 16 / 16 = a := by omega
      rw [this]
  | [a, b], h => by
      have ha : a < 256 := h a (by simp)
      have hb : b < 256 := h b (by simp)
      have h1 := b64Sextet_b64Char (a / 4) (by omega)
      have h2 := b64Sextet_b64Char (a % 4 * 16 + b / 16) (by omega)
      have h3 := b64Sextet_b64Char (b % 16 * 4) (by omega)
      have hne := b64Char_ne_61 (b % 16 * 4) (by omega)
      simp only [b64Encode, b64DecodeBlocks, h1, h2, if_neg hne, h3, if_pos rfl, reduceIte]
      congr 1
      have e1 : a / 4 * 4 + (a % 4 * 16 + b / 16) / 16 = a := by omega
      have e2 : (a % 4 * 16 + b / 16) % 16 * 16 + b % 16 * 4 / 4 = b := by omega
      rw [e1, e2]
  | a :: b :: c :: rest, h => by
      have ha : a < 256 := h a (by simp)
      have hb : b < 256 := h b (by simp)
      have hc : c < 256 := h c (by simp)
      have ih := b64DecodeBlocks_encode rest (fun x hx => h x (by simp [hx]))
      have h1 := b64Sextet_b64Char (a / 4) (by omega)
      have h2 := b64Sextet_b64Char (a % 4 * 16 + b / 16) (by omega)
      have h3 := b64Sextet_b64Char (b % 16 * 4 + c / 64) (by omega)
      have h4 := b64Sextet_b64Char (c % 64) (by omega)
      have hne3 := b64Char_ne_61 (b % 16 * 4 + c / 64) (by omega)
      have hne4 := b64Char_ne_61 (c % 64) (by omega)
      simp only [b64Encode, b64DecodeBlocks, h1, h2, if_neg hne3, h3, if_neg hne4, h4, ih]
      congr 1
      have e1 : a / 4 * 4 + (a % 4 * 16 + b / 16) / 16 = a := by omega
      have e2 : (a % 4 * 16 + b / 16) % 16 * 16 + (b % 16 * 4 + c / 64) / 4 = b := by omega
      have e3 : (b % 16 * 4 + c / 64) % 4 * 64 + c % 64 = c := by omega
      rw [e1, e2, e3]

theorem pyB64Decode_encode (bs : List Nat) (h : ∀ x ∈ bs, x < 256) :
    pyB64Decode (b64Encode bs) = some bs := by
  unfold pyB64Decode
  rw [List.filter_eq_self.mpr (b64Encode_all_b64 bs h)]
  rw [if_pos (b64Encode_length_mod4 bs)]
  exact b64DecodeBlocks_encode bs h

theorem jsonSafeByte_ne_34 (c : Nat) (h : jsonSafeByte c = true) : c ≠ 34 := by
  unfold jsonSafeByte at h
  simp only [Bool.and_eq_true, Bool.not_eq_eq_eq_not, Bool.not_true, beq_eq_false_iff_ne,
    decide_eq_true_eq] at h
  exact h.1.2

theorem jsonSafeByte_lt128 (c : Nat) (h : jsonSafeByte c = true) : c < 128 := by
  unfold jsonSafeByte at h
  simp only [Bool.and_eq_true, decide_eq_true_eq] at h
  exact h.1.1.2

theorem dropSeq_append (ps rest : List Nat) : dropSeq ps (ps ++ rest) = some rest := by
  induction ps with
  | nil => rfl
  | cons p ps ih => simp [dropSeq, ih]

theorem takeJsonStr_append (sb rest : List Nat)
    (h : ∀ c ∈ sb, jsonSafeByte c = true) :
    takeJsonStr (sb ++ 34 :: rest) = some (sb, rest) := by
  induction sb with
  | nil => rfl
  | cons c cs ih =>
      have hc : jsonSafeByte c = true := h c (by simp)
      have hne : c ≠ 34 := jsonSafeByte_ne_34 c hc
      have ih2 := ih (fun d hd => h d (by simp [hd]))
      simp [takeJsonStr, hne, hc, ih2]

theorem toNat_ofNat_lt128 : ∀ n, n < 128 → (Char.ofNat n).toNat = n := by decide

theorem strBytes_bytesToStr (bs : List Nat) (h : ∀ c ∈ bs, c < 128) :
    strBytes (bytesToStr bs) = bs := by
  unfold strBytes bytesToStr
  show (bs.map Char.ofNat).map Char.toNat = bs
  rw [List.map_map]
  induction bs with
  | nil => rfl
  | cons c cs ih =>
      simp only [List.map_cons, Function.comp]
      rw [toNat_ofNat_lt128 c (h c (by simp)), ih (fun d hd => h d (by simp [hd]))]

theorem bytesToStr_strBytes (s : String) : bytesToStr (strBytes s) = s := by
  unfold strBytes bytesToStr
  rw [List.map_map]
  have : s.data.map (Char.ofNat ∘ Char.toNat) = s.data := by
    induction s.data with
    | nil => rfl
    | cons c cs ih => simp only [List.map_cons, Function.comp, Char.ofNat_toNat, ih]
  rw [this]

theorem lekSane_pk (k : Lek) (h : lekSane k = true) :
    ∀ c ∈ strBytes k.pk, jsonSafeByte c = true := by
  unfold lekSane at h
  simp only [Bool.and_eq_true, List.all_eq_true] at h
  exact h.1

theorem lekSane_sk (k : Lek) (h : lekSane k = true) :
    ∀ c ∈ strBytes k.sk, jsonSafeByte c = true := by
  unfold lekSane at h
  simp only [Bool.and_eq_true, List.all_eq_true] at h
  exact h.2

theorem jsonDumpsLek_lt256 (k : Lek) (h : lekSane k = true) :
    ∀ x ∈ jsonDumpsLek k, x < 256 := by
  intro x hx
  unfold jsonDumpsLek at hx
  simp only [List.append_assoc, List.mem_append, List.mem_cons, List.not_mem_nil,
    or_false] at hx
  rcases hx with hx | hx | hx | hx | hx
  · omega
  · have := jsonSafeByte_lt128 x (lekSane_pk k h x hx)
    omega
  · omega
  · have := jsonSafeByte_lt128 x (lekSane_sk k h x hx)
    omega
  · omega

theorem jsonLoadsLek_dumps (k : Lek) (h : lekSane k = true) :
    jsonLoadsLek (jsonDumpsLek k) = some k := by
  have hpk := lekSane_pk k h
  have hsk := lekSane_sk k h
  unfold jsonLoadsLek jsonDumpsLek
  rw [List.append_assoc, List.append_assoc, List.append_assoc]
  rw [dropSeq_append, Option.some_bind]
  have hmid : strBytes k.pk ++ ([34, 44, 32, 34, 83, 75, 34, 58, 32, 34] ++
      (strBytes k.sk ++ [34, 125])) =
      strBytes k.pk ++ 34 :: ([44, 32, 34, 83, 75, 34, 58, 32, 34] ++
      (strBytes k.sk ++ [34, 125])) := by simp
  rw [hmid, takeJsonStr_append _ _ hpk, Option.some_bind]
  rw [dropSeq_append, Option.some_bind]
  have hend : strBytes k.sk ++ [34, 125] = strBytes k.sk ++ 34 :: [125] := by simp
  rw [hend, takeJsonStr_append _ _ hsk, Option.some_bind]
  simp [bytesToStr_strBytes]

theorem decodeToken_encodeToken (k : Lek) (h : lekSane k = true) :
    decodeToken (encodeToken k) = some k := by
  unfold decodeToken encodeToken
  rw [strBytes_bytesToStr _ (fun c hc =>
    isB64Byte_lt128 c (b64Encode_all_b64 _ (jsonDumpsLek_lt256 k h) c hc))]
  rw [pyB64Decode_encode _ (jsonDumpsLek_lt256 k h)]
  show jsonLoadsLek (jsonDumpsLek k) = some k
  exact jsonLoadsLek_dumps k h

/-- Claim C9: a continuation token that fails to decode is dropped and
the query proceeds exactly as with no token (the scan restarts from the
beginning); a token encoded from a LastEvaluatedKey round-trips exactly,
so a resumed call queries with precisely that key as its
ExclusiveStartKey — the identical page boundary. -/
theorem c9_token_roundtrip (t : Table) (uid : String) (l : Nat) (g : String)
    (k : Lek) (hg : decodeToken g = none) (hk : lekSane k = true) :
    get_transactions t uid l (some g) = get_transactions t uid l none ∧
    decodeToken (encodeToken k) = some k ∧
    get_transactions t uid l (some (encodeToken k)) =
      ⟨(queryTransDesc t (user_pk uid) "TRANS#" l (some k)).1,
       Option.map encodeToken (queryTransDesc t (user_pk uid) "TRANS#" l (some k)).2⟩ := by
  have hrt := decodeToken_encodeToken k hk
  refine ⟨?_, hrt, ?_⟩
  · simp only [get_transactions]
    rw [hg]
  · simp only [get_transactions]
    rw [hrt]

/-- Claim C9 witness: the malformed token consisting of three
exclamation marks decodes to nothing and is ignored; the sample
transaction boundary key round-trips. -/
theorem c9_witness :
    get_transactions sampleTable "C" 50 (some "!!!") =
      get_transactions sampleTable "C" 50 none ∧
    decodeToken (encodeToken ⟨"USER#C", "TRANS#2025-01-01T00:00:00.000001Z#X1"⟩) =
      some ⟨"USER#C", "TRANS#2025-01-01T00:00:00.000001Z#X1"⟩ ∧
    get_transactions sampleTable "C" 50
        (some (encodeToken ⟨"USER#C", "TRANS#2025-01-01T00:00:00.000001Z#X1"⟩)) =
      ⟨(queryTransDesc sampleTable (user_pk "C") "TRANS#" 50
          (some ⟨"USER#C", "TRANS#2025-01-01T00:00:00.000001Z#X1"⟩)).1,
       Option.map encodeToken (queryTransDesc sampleTable (user_pk "C") "TRANS#" 50
          (some ⟨"USER#C", "TRANS#2025-01-01T00:00:00.000001Z#X1"⟩)).2⟩ :=
  c9_token_roundtrip sampleTable "C" 50 "!!!"
    ⟨"USER#C", "TRANS#2025-01-01T00:00:00.000001Z#X1"⟩ (by decide) (by decide)

end KidBank
